import Mathlib

/-!
Verification development for the medical X-ray RAG system (`src/app.py`).
The retrieval pipeline (`FastRAGSystem`) is shallowly embedded: float32
vectors become lists over a linear ordered field (instantiated at `ℚ` for
concrete evaluation and at `ℝ` when square roots are needed), the FAISS
`IndexFlatIP` is modelled by exact inner-product scoring with the library's
documented `-1`-label padding for missing results, and Python strings become
`List Char` with explicit substring search.
-/

namespace XrayRag

/-- Index of the first occurrence of `pat` in `s`, as Python `str.find`
(returns the lowest index, `none` when absent; the empty pattern matches at
index 0, as in Python). -/
def findSub (s pat : List Char) : Option Nat :=
  (List.range (s.length + 1)).find? (fun i => pat.isPrefixOf (s.drop i))

/-- Python substring containment `pat in s`. -/
def containsSub (s pat : List Char) : Bool :=
  (findSub s pat).isSome

/-- The ordered keyword table of `extract_disease_name` (app.py lines
158-167).  Python dicts preserve insertion order, so the scan order is the
literal order below. -/
def positive_conditions : List (List Char × String) :=
  [("emphysema".data, "Emphysema"), ("pneumonia".data, "Pneumonia"),
   ("pleural effusion".data, "Pleural Effusion"),
   ("atelectasis".data, "Atelectasis"), ("cardiomegaly".data, "Cardiomegaly"),
   ("pulmonary edema".data, "Pulmonary Edema"),
   ("pneumothorax".data, "Pneumothorax"), ("consolidation".data, "Consolidation"),
   ("fibrosis".data, "Fibrosis"), ("nodule".data, "Nodule"),
   ("mass".data, "Mass"), ("fracture".data, "Fracture"),
   ("tuberculosis".data, "Tuberculosis"), ("covid-19".data, "COVID-19"),
   ("bronchitis".data, "Bronchitis"), ("lung cancer".data, "Lung Cancer"),
   ("pulmonary embolism".data, "Pulmonary Embolism"),
   ("interstitial markings".data, "Interstitial Disease"),
   ("hyperinflated".data, "Emphysema"), ("hyperlucency".data, "Emphysema"),
   ("enlarged heart".data, "Cardiomegaly"),
   ("cardiac silhouette is enlarged".data, "Cardiomegaly")]

/-- Negation markers of `extract_disease_name` (app.py line 173). -/
def negation_words : List (List Char) :=
  ["no ".data, "without ".data, "absence of".data, "rule out".data, "r/o".data]

/-- The 20-character lookback window before position `pos`:
`report_lower[max(0, pos-20):pos]` (app.py line 172; natural subtraction
realises the `max(0, pos-20)` clamp). -/
def lookback (s : List Char) (pos : Nat) : List Char :=
  (s.drop (pos - 20)).take (pos - (pos - 20))

/-- Whether the keyword occurrence at `pos` is negated: some negation marker
occurs in the 20-character lookback window (app.py line 174). -/
def isNegated (s : List Char) (pos : Nat) : Bool :=
  negation_words.any (fun neg => containsSub (lookback s pos) neg)

/-- One pass of the keyword loop of `extract_disease_name` (app.py lines
169-176): keywords are tried in table order; a key that occurs in `s` and is
not negated at its first occurrence immediately yields its label, otherwise
the scan continues with the rest of the table. -/
def scanConditions : List (List Char × String) → List Char → Option String
  | [], _ => none
  | (key, name) :: rest, s =>
    match findSub s key with
    | some pos => if isNegated s pos then scanConditions rest s else some name
    | none => scanConditions rest s

/-- Whether `key` has a non-negated first occurrence in `s` (the condition
under which the keyword loop of `extract_disease_name` returns `key`'s
label when reached). -/
def nonNegatedHit (key s : List Char) : Bool :=
  match findSub s key with
  | some pos => !(isNegated s pos)
  | none => false

/-- Explicit normal-language phrases (app.py line 178). -/
def explicit_normal_patterns : List (List Char) :=
  ["normal chest".data, "clear lungs".data, "unremarkable".data,
   "no acute".data, "no active disease".data, "within normal limits".data]

/-- Negative-finding phrases (app.py line 181). -/
def negative_only_patterns : List (List Char) :=
  ["no pneumonia".data, "no consolidation".data, "no pleural effusion".data,
   "no pneumothorax".data, "no mass".data, "no nodules".data,
   "no fracture".data]

/-- Body of `extract_disease_name` on the already lowercased text (app.py
lines 158-187): first the keyword scan, then the normal-findings heuristic
(an explicit normal phrase, or at least two negative-finding phrases), else
the catch-all label. -/
def classifyLower (l : List Char) : String :=
  match scanConditions positive_conditions l with
  | some name => name
  | none =>
    let has_explicit_normal := explicit_normal_patterns.any (fun p => containsSub l p)
    let negative_count := (negative_only_patterns.filter (fun p => containsSub l p)).length
    if has_explicit_normal || negative_count ≥ 2 then "Normal Findings"
    else "Radiographic Abnormality"

/-- Model of `FastRAGSystem.extract_disease_name` (app.py lines 155-187).  The Python
code first coerces its argument with `str()` and lowercases it; here the
argument is the `str()` image of the input and lowering is `Char.toLower`
over its characters. -/
def extract_disease_name (report_text : String) : String :=
  classifyLower (report_text.data.map Char.toLower)

section VectorIndex

variable {α : Type} [LinearOrderedField α]

/-- Sum of squares of a vector, the `nr` of FAISS `fvec_norm_L2sqr`; the
squared L2 norm. -/
def sumSq (v : List α) : α :=
  (v.map (fun x => x * x)).sum

/-- Model of `faiss.normalize_L2` on one row (FAISS `fvec_renorm_L2`): when the
squared norm is positive, divide every entry by its square root, otherwise
leave the vector unchanged (a zero vector stays the zero vector).  The
square-root operation of float arithmetic is passed explicitly; theorems
about genuine normalization instantiate it with `Real.sqrt`. -/
def normalize_L2 (sqrt : α → α) (v : List α) : List α :=
  if 0 < sumSq v then v.map (fun x => x / sqrt (sumSq v)) else v

/-- Inner product of two vectors (truncating at the shorter one; FAISS only
ever pairs vectors of the index dimension). -/
def innerProd : List α → List α → α
  | x :: xs, y :: ys => x * y + innerProd xs ys
  | _, _ => 0

/-- Scores of the query against every stored vector, paired with the stored
row position (as `Int`, since FAISS labels are signed 64-bit integers and
`-1` is a reserved sentinel). -/
def scoreAll (q : List α) : List (List α) → Nat → List (α × Int)
  | [], _ => []
  | v :: rest, start => (innerProd q v, (start : Int)) :: scoreAll q rest (start + 1)

/-- The score FAISS leaves in result slots that received no match (the heap
neutral element for inner-product search, an unrepresentably low float
modelled here as minus two to the 128th). -/
def faissPad : α :=
  -(2 ^ 128)

/-- Model of `faiss.IndexFlatIP.search` over the stored vectors `index`:
every stored vector is scored by inner product against `q`, results are
ordered by non-increasing score, the best `k` are returned, and when fewer
than `k` vectors are stored the result is padded to length `k` with label
`-1` and the neutral score, as the FAISS documentation specifies. -/
def faissSearch (index : List (List α)) (q : List α) (k : Nat) : List (α × Int) :=
  let sorted := List.insertionSort (fun a b : α × Int => b.1 ≤ a.1) (scoreAll q index 0)
  let top := sorted.take k
  top ++ List.replicate (k - top.length) (faissPad, -1)

/-- The metadata dict built by `build_faiss_index` (app.py lines 102-108). -/
structure Metadata where
  reports : List String
  ids : List String
  diseases : List String
  dimension : Nat
  total_records : Nat
deriving DecidableEq

/-- One entry of the result list of `search_similar_reports` (app.py lines
147-152). -/
structure SearchResult (α : Type) where
  report : String
  id : String
  disease : String
  similarity_score : α
deriving DecidableEq

/-- Python list subscription `l[i]` with a possibly negative index: a
non-negative index selects from the front, a negative index `i` selects
`l[len(l) + i]`.  Out-of-range access raises `IndexError` in Python; it is
marked by a sentinel value here and is unreachable from FAISS labels over a
non-empty index. -/
def pyGet (l : List String) (i : Int) : String :=
  if 0 ≤ i then l.getD i.toNat "IndexError"
  else if (-i).toNat ≤ l.length then l.getD (l.length - (-i).toNat) "IndexError"
  else "IndexError"

/-- The in-memory state of `FastRAGSystem` relevant to querying:
`self.faiss_index` and `self.metadata`, each possibly `None`. -/
structure RagState (α : Type) where
  faiss_index : Option (List (List α))
  metadata : Option Metadata
deriving DecidableEq

/-- Model of `FastRAGSystem.search_similar_reports` (app.py lines 133-153): empty
result when the index or the metadata is absent; otherwise the query text is
embedded, L2-normalized, searched, and each returned `(score, idx)` pair
with `idx < len(reports)` is zipped with the metadata at `idx` (Python
subscription, so `idx = -1` selects the last entry). -/
def search_similar_reports (sqrt : α → α) (encode : String → List α)
    (st : RagState α) (query_text : String) (k : Nat) : List (SearchResult α) :=
  match st.faiss_index, st.metadata with
  | some index, some md =>
    let q := normalize_L2 sqrt (encode query_text)
    (faissSearch index q k).filterMap (fun p =>
      if p.2 < (md.reports.length : Int) then
        some { report := pyGet md.reports p.2, id := pyGet md.ids p.2,
               disease := pyGet md.diseases p.2, similarity_score := p.1 }
      else none)
  | _, _ => []

/-- The persisted artifacts: the vector-index file (`faiss.write_index` /
`faiss.read_index`) and the metadata pickle.  `none` models an absent file;
serialization round-trips the value. -/
structure Disk (α : Type) where
  index_file : Option (List (List α))
  metadata_file : Option Metadata
deriving DecidableEq

/-- The index-and-metadata construction of `build_faiss_index` (app.py lines
73-118, without the disk fast path): embed every record text, L2-normalize
the embeddings, add them to a flat inner-product index in row order, and
build the aligned metadata dict.  A record is an `(id, text)` pair. -/
def buildCore (sqrt : α → α) (encode : String → List α)
    (records : List (String × String)) : List (List α) × Metadata :=
  let texts := records.map Prod.snd
  let embeddings := texts.map encode
  let index := embeddings.map (normalize_L2 sqrt)
  (index,
   { reports := texts,
     ids := records.map Prod.fst,
     diseases := texts.map extract_disease_name,
     dimension := (embeddings.headD []).length,
     total_records := records.length })

/-- Writing both artifacts (app.py lines 99-100 and 110-111). -/
def writeArtifacts (idx : List (List α)) (md : Metadata) : Disk α :=
  { index_file := some idx, metadata_file := some md }

/-- Model of `FastRAGSystem.load_faiss_index` (app.py lines 121-131): reading either
artifact fails (absent file) makes the whole load return `(None, None)`. -/
def load_faiss_index (d : Disk α) : Option (List (List α)) × Option Metadata :=
  match d.index_file, d.metadata_file with
  | some i, some m => (some i, some m)
  | _, _ => (none, none)

/-- Model of `FastRAGSystem.build_faiss_index` (app.py lines 69-119): without
`force_rebuild`, when BOTH artifact files exist the persisted snapshot is
loaded; otherwise a full build runs and writes both artifacts.  Returns the
`(index, metadata)` pair the method returns, plus the resulting disk. -/
def build_faiss_index (sqrt : α → α) (encode : String → List α)
    (records : List (String × String)) (force_rebuild : Bool) (d : Disk α) :
    (Option (List (List α)) × Option Metadata) × Disk α :=
  if !force_rebuild && d.index_file.isSome && d.metadata_file.isSome then
    (load_faiss_index d, d)
  else
    ((some (buildCore sqrt encode records).1, some (buildCore sqrt encode records).2),
     writeArtifacts (buildCore sqrt encode records).1 (buildCore sqrt encode records).2)

/-- The startup path of `main` (app.py lines 416-424): when the INDEX file is
absent, `build_faiss_index()` is called (and, both artifacts being absent or
not both present, performs a full build); otherwise the persisted snapshot
is loaded, whether or not the metadata file exists. -/
def main_startup (sqrt : α → α) (encode : String → List α)
    (records : List (String × String)) (d : Disk α) :
    (Option (List (List α)) × Option Metadata) × Disk α :=
  if d.index_file.isNone then build_faiss_index sqrt encode records false d
  else (load_faiss_index d, d)

end VectorIndex

section CorpusLoader

/-- A pandas column as far as `load_dataset` observes it: either an
object-dtype (string) column or a non-string (numeric) column. -/
inductive Column where
  | strCol : List String → Column
  | numCol : List Int → Column
deriving DecidableEq

/-- A dataframe as far as the text-column resolution of `load_dataset`
observes it: named columns in order, and the row count. -/
structure Table where
  cols : List (String × Column)
  nrows : Nat
deriving DecidableEq

/-- Column-name membership, Python `name in df.columns`. -/
def hasCol (t : Table) (name : String) : Bool :=
  t.cols.any (fun c => c.1 == name)

/-- Lookup of a column by name (first match, as pandas column labels are
unique here). -/
def getCol (t : Table) (name : String) : Option Column :=
  (t.cols.find? (fun c => c.1 == name)).map Prod.snd

/-- Lookup with a default, used only under a `hasCol` guard. -/
def getColD (t : Table) (name : String) (d : Column) : Column :=
  (getCol t name).getD d

/-- Assignment `df["text"] = col`, appending the new column (used only
when no `text` column exists). -/
def setTextCol (t : Table) (c : Column) : Table :=
  { t with cols := t.cols ++ [("text", c)] }

/-- The object-dtype columns in order, pandas
`df.select_dtypes(include=["object"]).columns`. -/
def objectCols (t : Table) : List (String × List String) :=
  t.cols.filterMap (fun c =>
    match c.2 with
    | Column.strCol vs => some (c.1, vs)
    | Column.numCol _ => none)

/-- Mean string length of a column, `df[x].str.len().mean()` (an empty
column is given mean 0; pandas produces NaN there, and NaN compares false
under the strict comparison of `pyMaxByMeanLen`, so the first column is kept
in both models). -/
def meanLen (vs : List String) : ℚ :=
  if vs.length = 0 then 0
  else ((vs.map (fun s => (s.length : ℚ))).sum) / (vs.length : ℚ)

/-- Python `max(text_cols, key=mean length)`: keeps the current best and
replaces it only on a strictly greater key, so the first maximum wins. -/
def pyMaxByMeanLen (objs : List (String × List String)) : Option (String × List String) :=
  match objs with
  | [] => none
  | c :: rest =>
    some (rest.foldl (fun b x => if meanLen b.2 < meanLen x.2 then x else b) c)

/-- The text-column resolution of `load_dataset` (app.py lines 51-59): keep
an existing `text` column; else alias `report`; else take the object column
with the greatest mean string length; else broadcast the placeholder
"No report available" to every record. -/
def resolve_text_column (t : Table) : Table :=
  if hasCol t "text" then t
  else if hasCol t "report" then setTextCol t (getColD t "report" (Column.strCol []))
  else
    match pyMaxByMeanLen (objectCols t) with
    | some p => setTextCol t (Column.strCol p.2)
    | none => setTextCol t (Column.strCol (List.replicate t.nrows "No report available"))

end CorpusLoader

section ConcreteInputs

/-- Identity on the rationals, standing in for float square root at inputs
whose squared norm is 1 (where `sqrt 1 = 1 = id 1`). -/
def idQ : ℚ → ℚ := fun x => x

/-- Constant embedding used by the C1 evaluation: every text maps to the
already-unit vector `[1, 0]`. -/
def encC1 : String → List ℚ := fun _ => [1, 0]

/-- Metadata of a one-record snapshot for the C1 evaluation. -/
def mdC1 : Metadata :=
  { reports := ["r0"], ids := ["id0"], diseases := ["d0"], dimension := 2, total_records := 1 }

/-- READY state holding one stored vector, for the C1 evaluation. -/
def stC1 : RagState ℚ :=
  { faiss_index := some [[1, 0]], metadata := some mdC1 }

/-- Constant embedding for the C2 evaluation. -/
def encC2 : String → List ℚ := fun _ => [1, 0]

/-- Metadata of a one-record snapshot for the C2 evaluation. -/
def mdC2 : Metadata :=
  { reports := ["ra"], ids := ["ia"], diseases := ["da"], dimension := 2, total_records := 1 }

/-- READY state holding one stored vector, for the C2 evaluation. -/
def stC2 : RagState ℚ :=
  { faiss_index := some [[1, 0]], metadata := some mdC2 }

/-- Constant embedding over the reals for the C3 witness. -/
def encC3 : String → List ℝ := fun _ => [3, 4]

/-- One-record corpus for the C3 witness. -/
def recsC3 : List (String × String) := [("1", "alpha")]

/-- Constant embedding for the C4 witness. -/
def encC4 : String → List ℚ := fun _ => [1]

/-- One-record corpus for the C4 witness. -/
def recsC4 : List (String × String) := [("1", "sample text")]

/-- Empty disk (no persisted artifacts) for the C4 witness. -/
def dC4 : Disk ℚ := { index_file := none, metadata_file := none }

/-- Constant embedding for the C5 instances. -/
def encC5 : String → List ℚ := fun _ => [1]

/-- One-record corpus for the C5 instances. -/
def recsC5 : List (String × String) := [("1", "t")]

/-- Half-present disk: the vector-index file exists, the metadata file does
not.  This is the state the C5 counterexample starts from. -/
def dC5 : Disk ℚ := { index_file := some [[1]], metadata_file := none }

/-- Metadata for the both-present disk of the C5 witness. -/
def mdC5 : Metadata :=
  { reports := ["t"], ids := ["1"], diseases := ["dt"], dimension := 1, total_records := 1 }

/-- Disk with both artifacts present, for the C5 witness. -/
def dC5b : Disk ℚ := { index_file := some [[1]], metadata_file := some mdC5 }

/-- Constant embedding for the C9 witness. -/
def encC9 : String → List ℚ := fun _ => [1]

/-- Metadata present while the in-memory index is `None`, for the C9
witness. -/
def mdC9 : Metadata :=
  { reports := ["x"], ids := ["1"], diseases := ["dx"], dimension := 1, total_records := 1 }

/-- The full label set the classifier can return: the keyword-table labels
plus the two fallback labels. -/
def allLabels : List String :=
  "Normal Findings" :: "Radiographic Abnormality" :: positive_conditions.map Prod.snd

/-- Table with a `report` column and no `text` column, for the C8 witness. -/
def tC8a : Table :=
  { cols := [("id", Column.numCol [7]), ("report", Column.strCol ["hello"])], nrows := 1 }

/-- Table with neither `text` nor `report` nor any object column, for the C8
witness. -/
def tC8d : Table :=
  { cols := [("n", Column.numCol [1, 2])], nrows := 2 }

end ConcreteInputs

/-! Helper lemmas about the keyword scan. -/

/-- One step of the keyword scan, phrased through `nonNegatedHit`. -/
theorem scanConditions_cons (key : List Char) (name : String)
    (rest : List (List Char × String)) (s : List Char) :
    scanConditions ((key, name) :: rest) s =
      if nonNegatedHit key s then some name else scanConditions rest s := by
  cases h : findSub s key with
  | none => simp [scanConditions, nonNegatedHit, h]
  | some pos =>
    cases hn : isNegated s pos <;> simp [scanConditions, nonNegatedHit, h, hn]

/-- A label produced by the keyword scan comes from the table. -/
theorem scanConditions_mem (table : List (List Char × String)) (s : List Char)
    (name : String) (h : scanConditions table s = some name) :
    name ∈ table.map Prod.snd := by
  induction table with
  | nil => simp [scanConditions] at h
  | cons hd tl ih =>
    obtain ⟨key, nm⟩ := hd
    rw [scanConditions_cons] at h
    cases hb : nonNegatedHit key s with
    | true =>
      rw [hb] at h
      simp at h
      simp [h]
    | false =>
      rw [hb] at h
      simp at h
      simp [ih h]

/-- The classifier body always lands in the fixed label set. -/
theorem classifyLower_mem (l : List Char) : classifyLower l ∈ allLabels := by
  unfold classifyLower allLabels
  cases hscan : scanConditions positive_conditions l with
  | some name =>
    simp only
    have := scanConditions_mem _ _ _ hscan
    simp [this]
  | none =>
    simp only
    split <;> simp

/-! Classifier claims. -/

/-- C6 (counterexample): the claim quantifies over every text whose
"pneumonia" and "cardiomegaly" occurrences are non-negated, but a text that
additionally contains a non-negated "emphysema" — the one key preceding
"pneumonia" in table order — is classified "Emphysema", not "Pneumonia". -/
theorem claim_C6_counterexample :
    nonNegatedHit "pneumonia".data ("emphysema pneumonia cardiomegaly".data.map Char.toLower) = true ∧
    nonNegatedHit "cardiomegaly".data ("emphysema pneumonia cardiomegaly".data.map Char.toLower) = true ∧
    extract_disease_name "emphysema pneumonia cardiomegaly" = "Emphysema" ∧
    extract_disease_name "emphysema pneumonia cardiomegaly" ≠ "Pneumonia" := by
  refine ⟨by decide, by decide, by decide, by decide⟩

/-- C6 (amended): for every text with a non-negated "pneumonia" occurrence
and a non-negated "cardiomegaly" occurrence, and with no non-negated
occurrence of "emphysema" (the only key before "pneumonia" in table order),
the classifier returns "Pneumonia" — irrespective of where the keywords
occur in the string, since precedence comes from table order alone. -/
theorem claim_C6 (s : String)
    (hemph : nonNegatedHit "emphysema".data (s.data.map Char.toLower) = false)
    (hpneu : nonNegatedHit "pneumonia".data (s.data.map Char.toLower) = true)
    (hcard : nonNegatedHit "cardiomegaly".data (s.data.map Char.toLower) = true) :
    extract_disease_name s = "Pneumonia" := by
  unfold extract_disease_name classifyLower
  rw [show positive_conditions =
        ("emphysema".data, "Emphysema") :: ("pneumonia".data, "Pneumonia") ::
          (positive_conditions.drop 2) from rfl]
  rw [scanConditions_cons, hemph, scanConditions_cons, hpneu]
  simp

/-- C6 (witness): in "cardiomegaly and pneumonia" the word "cardiomegaly"
occurs first in the string, yet the classifier returns "Pneumonia". -/
theorem claim_C6_witness :
    nonNegatedHit "emphysema".data ("cardiomegaly and pneumonia".data.map Char.toLower) = false ∧
    nonNegatedHit "pneumonia".data ("cardiomegaly and pneumonia".data.map Char.toLower) = true ∧
    nonNegatedHit "cardiomegaly".data ("cardiomegaly and pneumonia".data.map Char.toLower) = true ∧
    extract_disease_name "cardiomegaly and pneumonia" = "Pneumonia" :=
  ⟨by decide, by decide, by decide,
   claim_C6 "cardiomegaly and pneumonia" (by decide) (by decide) (by decide)⟩

/-- C7 (counterexample): the spec example is not classified
"Normal Findings" by the code — the negated "pneumonia" is skipped, but the
fallback heuristic then fails to fire (no explicit normal phrase is a
substring of the text, and no negative-finding pattern matches), so the
catch-all label is produced. -/
theorem claim_C7_counterexample :
    extract_disease_name "no evidence of pneumonia, normal exam" ≠ "Normal Findings" := by
  decide

/-- C7 (amended): a keyword occurrence whose 20-character lookback window
contains a negation marker is skipped and scanning continues with the rest
of the table; on the example text the negated "pneumonia" is indeed skipped
(the result is not "Pneumonia"), but the code classifies it
"Radiographic Abnormality", not "Normal Findings". -/
theorem claim_C7 :
    (∀ (key : List Char) (name : String) (rest : List (List Char × String))
        (s : List Char) (pos : Nat),
        findSub s key = some pos → isNegated s pos = true →
        scanConditions ((key, name) :: rest) s = scanConditions rest s) ∧
    extract_disease_name "no evidence of pneumonia, normal exam" = "Radiographic Abnormality" ∧
    extract_disease_name "no evidence of pneumonia, normal exam" ≠ "Pneumonia" := by
  refine ⟨?_, by decide, by decide⟩
  intro key name rest s pos hf hn
  have hh : nonNegatedHit key s = false := by simp [nonNegatedHit, hf, hn]
  rw [scanConditions_cons, hh]
  simp

/-- C7 (witness): in the example text, "pneumonia" occurs at position 15
and its 20-character lookback window "no evidence of " contains the
negation marker "no ", so the scan step skips it. -/
theorem claim_C7_witness :
    findSub ("no evidence of pneumonia, normal exam".data) ("pneumonia".data) = some 15 ∧
    isNegated ("no evidence of pneumonia, normal exam".data) 15 = true ∧
    scanConditions [("pneumonia".data, "Pneumonia")] ("no evidence of pneumonia, normal exam".data) =
      scanConditions [] ("no evidence of pneumonia, normal exam".data) :=
  ⟨by decide, by decide,
   claim_C7.1 "pneumonia".data "Pneumonia" [] "no evidence of pneumonia, normal exam".data 15
     (by decide) (by decide)⟩

/-- C10: the classifier is total with a fixed finite codomain — for every
input string (the `str()` image of an arbitrary Python value) the result is
one of the keyword-table labels, "Normal Findings", or
"Radiographic Abnormality"; and the result depends only on the lowercased
text, so matching is case-insensitive. -/
theorem claim_C10 (s : String) :
    extract_disease_name s ∈ allLabels ∧
    ∀ t : String, s.data.map Char.toLower = t.data.map Char.toLower →
      extract_disease_name s = extract_disease_name t := by
  constructor
  · exact classifyLower_mem _
  · intro t h
    unfold extract_disease_name
    rw [h]

/-- C10 (witness): the uppercase text "PNEUMONIA PRESENT" has the same
lowercased characters as "pneumonia present", so both classify alike, and
the label is in the fixed label set. -/
theorem claim_C10_witness :
    extract_disease_name "PNEUMONIA PRESENT" ∈ allLabels ∧
    extract_disease_name "PNEUMONIA PRESENT" = extract_disease_name "pneumonia present" :=
  ⟨(claim_C10 "PNEUMONIA PRESENT").1,
   (claim_C10 "PNEUMONIA PRESENT").2 "pneumonia present" (by decide)⟩

/-! Vector-index and retrieval-engine claims. -/

/-- C1 (evaluation at the failing input): over a READY snapshot with
exactly one stored record, querying with k = 2 returns TWO result entries,
not one — FAISS pads the missing slot with label -1 and the neutral score,
the Python guard `idx < len(reports)` accepts -1, and the metadata at
Python index -1 (the last record) is zipped in.  The claim requires exactly
N = 1 entries when k > N. -/
theorem claim_C1 :
    mdC1.total_records = 1 ∧
    (search_similar_reports idQ encC1 stC1 "chest query" 2).length = 2 := by
  refine ⟨rfl, ?_⟩
  norm_num [search_similar_reports, encC1, mdC1, stC1, idQ, faissSearch, scoreAll, innerProd,
    normalize_L2, sumSq, List.insertionSort, List.orderedInsert, List.replicate, pyGet,
    List.filterMap]

/-- C2 (evaluation at the failing input): with one stored record and k = 3,
FAISS returns the labels (0, -1, -1); the label -1 is not a valid stored
position, yet it passes the `idx < len(reports)` check and two result
entries are built from it, duplicating the last record with the padding
score.  The claim requires every position used for metadata lookup to
satisfy 0 ≤ position < N. -/
theorem claim_C2 :
    faissSearch [[(1 : ℚ), 0]] [1, 0] 3 = [(1, 0), (faissPad, -1), (faissPad, -1)] ∧
    search_similar_reports idQ encC2 stC2 "query" 3 =
      [{ report := "ra", id := "ia", disease := "da", similarity_score := 1 },
       { report := "ra", id := "ia", disease := "da", similarity_score := faissPad },
       { report := "ra", id := "ia", disease := "da", similarity_score := faissPad }] := by
  constructor
  · norm_num [faissSearch, scoreAll, innerProd, List.insertionSort, List.orderedInsert,
      List.replicate]
  · norm_num [search_similar_reports, encC2, mdC2, stC2, idQ, faissSearch, scoreAll, innerProd,
      normalize_L2, sumSq, List.insertionSort, List.orderedInsert, List.replicate, pyGet,
      List.filterMap]

/-- C9: whenever the in-memory index or the metadata is absent (the engine
is not READY), `search_similar_reports` returns the empty list, for every
query text and every k, and no error path exists. -/
theorem claim_C9 {α : Type} [LinearOrderedField α] (sqrt : α → α)
    (encode : String → List α) (st : RagState α) (q : String) (k : Nat)
    (h : st.faiss_index = none ∨ st.metadata = none) :
    search_similar_reports sqrt encode st q k = [] := by
  obtain ⟨fi, md⟩ := st
  cases fi <;> cases md <;> simp_all [search_similar_reports]

/-- C9 (witness): a state with metadata loaded but no in-memory index
yields the empty result for a concrete query. -/
theorem claim_C9_witness :
    (({ faiss_index := none, metadata := some mdC9 } : RagState ℚ).faiss_index = none ∨
      ({ faiss_index := none, metadata := some mdC9 } : RagState ℚ).metadata = none) ∧
    search_similar_reports idQ encC9 { faiss_index := none, metadata := some mdC9 } "q" 5 = [] :=
  ⟨Or.inl rfl, claim_C9 idQ encC9 { faiss_index := none, metadata := some mdC9 } "q" 5 (Or.inl rfl)⟩

/-- C4: a forced build writes both artifacts, and loading them back yields
exactly the pair the build returned, so the loaded snapshot answers every
query identically to the freshly built one (in this exact-arithmetic model
the scores agree exactly, hence within any floating tolerance). -/
theorem claim_C4 {α : Type} [LinearOrderedField α] (sqrt : α → α)
    (encode : String → List α) (records : List (String × String)) (q : String) (k : Nat)
    (d : Disk α) (res : Option (List (List α)) × Option Metadata) (d2 : Disk α)
    (h : build_faiss_index sqrt encode records true d = (res, d2)) :
    load_faiss_index d2 = res ∧
    search_similar_reports sqrt encode
        { faiss_index := (load_faiss_index d2).1, metadata := (load_faiss_index d2).2 } q k =
      search_similar_reports sqrt encode { faiss_index := res.1, metadata := res.2 } q k := by
  simp only [build_faiss_index, Bool.not_true, Bool.false_and, Bool.false_eq_true,
    if_false] at h
  have h1 := congrArg Prod.fst h
  have h2 := congrArg Prod.snd h
  dsimp only at h1 h2
  subst h1
  subst h2
  exact ⟨rfl, rfl⟩

/-- C4 (witness): building a one-record corpus with force, then loading the
written artifacts, reproduces the snapshot the build returned. -/
theorem claim_C4_witness :
    build_faiss_index idQ encC4 recsC4 true dC4 =
      ((build_faiss_index idQ encC4 recsC4 true dC4).1,
       (build_faiss_index idQ encC4 recsC4 true dC4).2) ∧
    load_faiss_index (build_faiss_index idQ encC4 recsC4 true dC4).2 =
      (build_faiss_index idQ encC4 recsC4 true dC4).1 :=
  ⟨rfl, (claim_C4 idQ encC4 recsC4 "q" 1 dC4 _ _ rfl).1⟩

/-- C5 (counterexample): with the vector-index file present and the
metadata file absent, the startup path of `main` does NOT trigger a
rebuild — it takes the load branch, the load fails to `(None, None)`, and
the disk is left unchanged with the metadata artifact still missing.  The
claim requires a full rebuild whenever either artifact is absent. -/
theorem claim_C5_counterexample :
    dC5.metadata_file = none ∧
    main_startup idQ encC5 recsC5 dC5 = ((none, none), dC5) ∧
    (main_startup idQ encC5 recsC5 dC5).2.metadata_file = none := by
  refine ⟨rfl, rfl, rfl⟩

/-- C5 (amended): READY from disk requires BOTH artifacts — the fast path
of `build_faiss_index` loads only when both files exist and performs a full
build (writing both) when either is absent; the startup path of `main`,
however, keys only on the index file: it rebuilds when the index file is
absent, and otherwise loads — so when the index file exists but the
metadata file is missing, it neither rebuilds nor reaches READY, returning
`(None, None)` and leaving the disk unchanged. -/
theorem claim_C5 {α : Type} [LinearOrderedField α] (sqrt : α → α)
    (encode : String → List α) (records : List (String × String)) (d : Disk α) :
    (d.index_file.isSome = true → d.metadata_file.isSome = true →
       build_faiss_index sqrt encode records false d = (load_faiss_index d, d)) ∧
    (d.index_file.isSome = false ∨ d.metadata_file.isSome = false →
       build_faiss_index sqrt encode records false d =
         ((some (buildCore sqrt encode records).1, some (buildCore sqrt encode records).2),
          writeArtifacts (buildCore sqrt encode records).1 (buildCore sqrt encode records).2)) ∧
    (d.index_file = none →
       main_startup sqrt encode records d = build_faiss_index sqrt encode records false d) ∧
    (∀ i, d.index_file = some i →
       main_startup sqrt encode records d = (load_faiss_index d, d)) ∧
    (∀ i, d.index_file = some i → d.metadata_file = none →
       main_startup sqrt encode records d = ((none, none), d)) := by
  obtain ⟨fi, fm⟩ := d
  refine ⟨?_, ?_, ?_, ?_, ?_⟩
  · intro h1 h2
    cases fi <;> cases fm <;> simp_all [build_faiss_index]
  · intro h
    cases fi <;> cases fm <;> simp_all [build_faiss_index]
  · intro h
    cases fi <;> simp_all [main_startup]
  · intro i h
    cases fi <;> simp_all [main_startup]
  · intro i h h2
    cases fi <;> cases fm <;> simp_all [main_startup, load_faiss_index]

/-- C5 (witness): with both artifacts present the fast path loads; with the
index file present and metadata absent the startup path loads nothing and
does not rebuild. -/
theorem claim_C5_witness :
    build_faiss_index idQ encC5 recsC5 false dC5b = (load_faiss_index dC5b, dC5b) ∧
    main_startup idQ encC5 recsC5 dC5 = (load_faiss_index dC5, dC5) ∧
    main_startup idQ encC5 recsC5 dC5 = ((none, none), dC5) :=
  ⟨(claim_C5 idQ encC5 recsC5 dC5b).1 rfl rfl,
   (claim_C5 idQ encC5 recsC5 dC5).2.2.2.1 [[1]] rfl,
   (claim_C5 idQ encC5 recsC5 dC5).2.2.2.2 [[1]] rfl rfl⟩

/-! Normalization lemmas over an ordered field and over the reals. -/

/-- Sums of squares are non-negative. -/
theorem sumSq_nonneg {α : Type} [LinearOrderedField α] (v : List α) : 0 ≤ sumSq v := by
  induction v with
  | nil => simp [sumSq]
  | cons x xs ih =>
    have hx : (0 : α) ≤ x * x := mul_self_nonneg x
    calc (0 : α) ≤ x * x + sumSq xs := add_nonneg hx ih
    _ = sumSq (x :: xs) := by simp [sumSq]

/-- Dividing every entry by `c` divides the sum of squares by `c * c`. -/
theorem sumSq_map_div {α : Type} [LinearOrderedField α] (v : List α) (c : α) :
    sumSq (v.map (fun x => x / c)) = sumSq v / (c * c) := by
  induction v with
  | nil => simp [sumSq]
  | cons x xs ih =>
    have h1 : sumSq ((x :: xs).map (fun x => x / c)) =
        x / c * (x / c) + sumSq (xs.map (fun x => x / c)) := by simp [sumSq]
    have h2 : sumSq (x :: xs) = x * x + sumSq xs := by simp [sumSq]
    rw [h1, ih, h2, div_mul_div_comm, div_add_div_same]

/-- Over the reals, normalizing a vector of positive squared norm yields a
unit vector (squared norm one). -/
theorem sumSq_normalize_eq_one (v : List ℝ) (h : 0 < sumSq v) :
    sumSq (normalize_L2 Real.sqrt v) = 1 := by
  unfold normalize_L2
  rw [if_pos h, sumSq_map_div, Real.mul_self_sqrt h.le, div_self h.ne']

/-- A vector without positive squared norm is left unchanged by
normalization (the zero-vector policy of `fvec_renorm_L2`). -/
theorem normalize_of_not_pos {α : Type} [LinearOrderedField α] (sqrt : α → α)
    (v : List α) (h : ¬ 0 < sumSq v) : normalize_L2 sqrt v = v :=
  if_neg h

/-- C3: every snapshot produced by the build core is aligned — the three
metadata arrays, `total_records` and the vector index all have length N,
the index rows are the normalized embeddings of the records in the same
order (stated positionally for every index), and every stored vector has
unit squared L2 norm except those whose embedding was the zero vector,
which are stored unchanged (squared norm 0). -/
theorem claim_C3 (encode : String → List ℝ) (records : List (String × String))
    (index : List (List ℝ)) (md : Metadata)
    (h : buildCore Real.sqrt encode records = (index, md)) :
    md.reports.length = records.length ∧
    md.ids.length = records.length ∧
    md.diseases.length = records.length ∧
    md.total_records = records.length ∧
    index.length = records.length ∧
    (∀ i : Nat, index.get? i =
      (records.get? i).map (fun r => normalize_L2 Real.sqrt (encode r.2))) ∧
    (∀ i : Nat, md.reports.get? i = (records.get? i).map Prod.snd) ∧
    (∀ v ∈ index, sumSq v = 1 ∨ sumSq v = 0) ∧
    (∀ e : List ℝ, 0 < sumSq e → sumSq (normalize_L2 Real.sqrt e) = 1) ∧
    (∀ e : List ℝ, sumSq e = 0 → normalize_L2 Real.sqrt e = e) := by
  have h1 : index = ((records.map Prod.snd).map encode).map (normalize_L2 Real.sqrt) := by
    have := congrArg Prod.fst h
    simpa [buildCore] using this.symm
  have h2 : md = Metadata.mk (records.map Prod.snd) (records.map Prod.fst)
      ((records.map Prod.snd).map extract_disease_name)
      ((((records.map Prod.snd).map encode).headD []).length) records.length := by
    have := congrArg Prod.snd h
    simpa [buildCore] using this.symm
  subst h1
  subst h2
  refine ⟨by simp, by simp, by simp, rfl, by simp, ?_, ?_, ?_, ?_, ?_⟩
  · intro i
    simp only [List.get?_map, Option.map_map]
    rfl
  · intro i
    simp [List.get?_map]
  · intro v hv
    simp only [List.mem_map] at hv
    obtain ⟨e, _, rfl⟩ := hv
    by_cases hp : 0 < sumSq e
    · exact Or.inl (sumSq_normalize_eq_one e hp)
    · right
      rw [normalize_of_not_pos _ _ hp]
      exact le_antisymm (not_lt.mp hp) (sumSq_nonneg e)
  · intro e hp
    exact sumSq_normalize_eq_one e hp
  · intro e h0
    exact normalize_of_not_pos _ _ (by rw [h0]; exact lt_irrefl 0)

/-- C3 (witness): the one-record corpus with embedding `[3, 4]` builds a
snapshot of one aligned row whose stored vector is the normalization of
`[3, 4]`, and that normalization has unit squared norm. -/
theorem claim_C3_witness :
    (buildCore Real.sqrt encC3 recsC3).2.reports.length = 1 ∧
    (buildCore Real.sqrt encC3 recsC3).1.get? 0 =
      (recsC3.get? 0).map (fun r => normalize_L2 Real.sqrt (encC3 r.2)) ∧
    0 < sumSq (encC3 "alpha") ∧
    sumSq (normalize_L2 Real.sqrt (encC3 "alpha")) = 1 := by
  obtain ⟨hA, -, -, -, -, hB, -, -, hD, -⟩ :=
    claim_C3 encC3 recsC3 (buildCore Real.sqrt encC3 recsC3).1
      (buildCore Real.sqrt encC3 recsC3).2 rfl
  have hpos : 0 < sumSq (encC3 "alpha") := by norm_num [sumSq, encC3]
  exact ⟨by simpa [recsC3] using hA, hB 0, hpos, hD _ hpos⟩

/-! Corpus-loader lemmas and claim. -/

/-- Appending a column named `name` to a list with no such column makes it
the one `find?` returns. -/
theorem find?_append_named (l : List (String × Column)) (name : String) (c : Column)
    (h : l.any (fun x => x.1 == name) = false) :
    (l ++ [(name, c)]).find? (fun x => x.1 == name) = some (name, c) := by
  induction l with
  | nil => simp [List.find?]
  | cons hd tl ih =>
    rw [List.any_cons, Bool.or_eq_false_iff] at h
    rw [List.cons_append, List.find?_cons_of_neg _ (by simp [h.1]), ih h.2]

/-- Lookup of the freshly assigned `text` column. -/
theorem getCol_setText (t : Table) (c : Column) (h : hasCol t "text" = false) :
    getCol (setTextCol t c) "text" = some c := by
  unfold getCol setTextCol
  rw [find?_append_named _ _ _ h]
  rfl

/-- A present column is found. -/
theorem getCol_isSome_of_hasCol (t : Table) (name : String) (h : hasCol t name = true) :
    (getCol t name).isSome = true := by
  unfold getCol
  cases hf : t.cols.find? (fun c => c.1 == name) with
  | some x => simp
  | none =>
    unfold hasCol at h
    rw [List.any_eq_true] at h
    obtain ⟨x, hx, hpx⟩ := h
    rw [List.find?_eq_none] at hf
    exact absurd hpx (by simpa using hf x hx)

/-- Lookup with a default agrees with plain lookup on present columns. -/
theorem getColD_spec (t : Table) (name : String) (d : Column)
    (h : (getCol t name).isSome = true) : getCol t name = some (getColD t name d) := by
  unfold getColD
  cases hg : getCol t name with
  | none => rw [hg] at h; simp at h
  | some c => simp [hg]

/-- The Python max fold returns its accumulator or a list element. -/
theorem foldl_pyMax_mem (l : List (String × List String)) (b : String × List String) :
    l.foldl (fun b x => if meanLen b.2 < meanLen x.2 then x else b) b = b ∨
      l.foldl (fun b x => if meanLen b.2 < meanLen x.2 then x else b) b ∈ l := by
  induction l generalizing b with
  | nil => exact Or.inl rfl
  | cons hd tl ih =>
    rw [List.foldl_cons]
    rcases ih (if meanLen b.2 < meanLen hd.2 then hd else b) with h | h
    · rw [h]
      by_cases hc : meanLen b.2 < meanLen hd.2
      · rw [if_pos hc]; exact Or.inr (List.mem_cons_self _ _)
      · rw [if_neg hc]; exact Or.inl rfl
    · exact Or.inr (List.mem_cons_of_mem _ h)

/-- The Python max fold dominates its accumulator and every list element. -/
theorem foldl_pyMax_ge (l : List (String × List String)) (b : String × List String) :
    meanLen b.2 ≤
        meanLen (l.foldl (fun b x => if meanLen b.2 < meanLen x.2 then x else b) b).2 ∧
      ∀ c ∈ l, meanLen c.2 ≤
        meanLen (l.foldl (fun b x => if meanLen b.2 < meanLen x.2 then x else b) b).2 := by
  induction l generalizing b with
  | nil => exact ⟨le_refl _, by simp⟩
  | cons hd tl ih =>
    rw [List.foldl_cons]
    obtain ⟨h1, h2⟩ := ih (if meanLen b.2 < meanLen hd.2 then hd else b)
    have hacc : meanLen b.2 ≤ meanLen (if meanLen b.2 < meanLen hd.2 then hd else b).2 := by
      by_cases hc : meanLen b.2 < meanLen hd.2
      · rw [if_pos hc]; exact hc.le
      · rw [if_neg hc]
    have hhd : meanLen hd.2 ≤ meanLen (if meanLen b.2 < meanLen hd.2 then hd else b).2 := by
      by_cases hc : meanLen b.2 < meanLen hd.2
      · rw [if_pos hc]
      · rw [if_neg hc]; exact not_lt.mp hc
    refine ⟨le_trans hacc h1, ?_⟩
    intro c hc
    rcases List.mem_cons.mp hc with rfl | hmem
    · exact le_trans hhd h1
    · exact h2 c hmem

/-- An empty object-column list is exactly what makes the Python max
absent. -/
theorem pyMax_eq_none (objs : List (String × List String)) :
    pyMaxByMeanLen objs = none ↔ objs = [] := by
  cases objs <;> simp [pyMaxByMeanLen]

/-- C8: the text-column resolution follows the spec priority order — an
existing `text` column is kept as is; else a `report` column is aliased to
`text`; else among the object-dtype columns one of greatest mean string
length becomes `text`; else every record receives the placeholder
"No report available". -/
theorem claim_C8 (t : Table) :
    (hasCol t "text" = true → resolve_text_column t = t) ∧
    (hasCol t "text" = false → hasCol t "report" = true →
       getCol (resolve_text_column t) "text" = getCol t "report") ∧
    (hasCol t "text" = false → hasCol t "report" = false → objectCols t ≠ [] →
       ∃ p, p ∈ objectCols t ∧
         getCol (resolve_text_column t) "text" = some (Column.strCol p.2) ∧
         ∀ c ∈ objectCols t, meanLen c.2 ≤ meanLen p.2) ∧
    (hasCol t "text" = false → hasCol t "report" = false → objectCols t = [] →
       getCol (resolve_text_column t) "text" =
         some (Column.strCol (List.replicate t.nrows "No report available"))) := by
  refine ⟨?_, ?_, ?_, ?_⟩
  · intro h
    simp [resolve_text_column, h]
  · intro h1 h2
    have hr : resolve_text_column t = setTextCol t (getColD t "report" (Column.strCol [])) := by
      simp [resolve_text_column, h1, h2]
    rw [hr, getCol_setText t _ h1]
    exact (getColD_spec t "report" (Column.strCol []) (getCol_isSome_of_hasCol t "report" h2)).symm
  · intro h1 h2 h3
    cases hobj : objectCols t with
    | nil => exact absurd hobj h3
    | cons c rest =>
      have hm : pyMaxByMeanLen (objectCols t) =
          some (rest.foldl (fun b x => if meanLen b.2 < meanLen x.2 then x else b) c) := by
        rw [hobj]; rfl
      have hr : resolve_text_column t = setTextCol t
          (Column.strCol (rest.foldl (fun b x => if meanLen b.2 < meanLen x.2 then x else b) c).2) := by
        simp [resolve_text_column, h1, h2, hm]
      refine ⟨rest.foldl (fun b x => if meanLen b.2 < meanLen x.2 then x else b) c, ?_, ?_, ?_⟩
      · rcases foldl_pyMax_mem rest c with h | h
        · rw [h]; exact List.mem_cons_self _ _
        · exact List.mem_cons_of_mem _ h
      · rw [hr, getCol_setText t _ h1]
      · intro x hx
        obtain ⟨hacc, hall⟩ := foldl_pyMax_ge rest c
        rcases List.mem_cons.mp hx with rfl | hmem
        · exact hacc
        · exact hall x hmem
  · intro h1 h2 h3
    have hm : pyMaxByMeanLen (objectCols t) = none := (pyMax_eq_none _).mpr h3
    have hr : resolve_text_column t =
        setTextCol t (Column.strCol (List.replicate t.nrows "No report available")) := by
      simp [resolve_text_column, h1, h2, hm]
    rw [hr, getCol_setText t _ h1]

/-- C8 (witness): a table with a `report` column and no `text` column gets
`report` aliased to `text`; a table with only a numeric column gets the
placeholder broadcast to its two records. -/
theorem claim_C8_witness :
    hasCol tC8a "text" = false ∧ hasCol tC8a "report" = true ∧
    getCol (resolve_text_column tC8a) "text" = getCol tC8a "report" ∧
    getCol (resolve_text_column tC8d) "text" =
      some (Column.strCol (List.replicate tC8d.nrows "No report available")) :=
  ⟨by decide, by decide, (claim_C8 tC8a).2.1 (by decide) (by decide),
   (claim_C8 tC8d).2.2.2 (by decide) (by decide) (by decide)⟩

end XrayRag
